import Mathlib

/-!
# Schema synchronisation of `business/data/schema`

A shallow embedding of `schema.go`: the schema document, the sentinel errors,
`validate`, `query`, `retrieve`, `Create` and `DropAll`, over a model of the
libraries the package calls (`github.com/pkg/errors`, `strings`, `regexp`, the
database client, `context`, `time` and `encoding/json`).
-/

namespace schema

/-! ## Go strings -/

/-- A Go `string` is a sequence of bytes; `len` and slicing count bytes. -/
abbrev GoString := List UInt8

/-- The UTF-8 bytes of a list of characters. -/
def utf8 : List Char → GoString
  | [] => []
  | c :: cs => String.utf8EncodeChar c ++ utf8 cs

/-- A string literal of the source, as the bytes Go stores for it. -/
def str (s : String) : GoString := utf8 s.data

/-- Go's slice expression `s[n:]`: the bytes from index `n` on, and a run-time
panic (`none`) when `n` exceeds `len(s)`. -/
def sliceFrom (s : GoString) (n : Nat) : Option GoString :=
  if n ≤ s.length then some (s.drop n) else none

/-! ## `github.com/pkg/errors` -/

/-- Error values. `fundamental` is what `errors.New` builds, `withMessage` what
`errors.Wrap` builds around a cause (the recorded stack is left out), and
`external` stands for an error value made by a library outside the package:
the database client, the context or the JSON encoder. -/
inductive GoError where
  | fundamental (msg : GoString)
  | withMessage (cause : GoError) (msg : GoString)
  | external (msg : GoString)
  deriving DecidableEq

/-- Go's `error` interface: `none` is `nil`. Comparison of two values with `==`
is identity of the error value; the values compared in this package are the
sentinels, which differ in their message, so equality of the model agrees
with it. -/
abbrev error := Option GoError

/-- The method `Error()`: the message of an error value. -/
def GoError.Error : GoError → GoString
  | .fundamental msg => msg
  | .withMessage cause msg => msg ++ str ": " ++ cause.Error
  | .external msg => msg

/-- The function `errors.New`. -/
def errors.New (message : GoString) : error := some (.fundamental message)

/-- The function `errors.Wrap`: it annotates `err` with a message, and returns
`nil` when `err` is `nil`. -/
def errors.Wrap (err : error) (message : GoString) : error :=
  match err with
  | none => none
  | some e => some (.withMessage e message)

/-! ## `strings` -/

/-- The function `strings.Contains`. -/
def strings.Contains : GoString → GoString → Bool
  | [], substr => substr.isPrefixOf []
  | b :: bs, substr => substr.isPrefixOf (b :: bs) || strings.Contains bs substr

/-- The scan of `strings.ReplaceAll`, left to right; `skip` counts the bytes of
the current occurrence of `old` that are still to be passed over. -/
def strings.replaceFrom (old new : GoString) : Nat → GoString → GoString
  | _, [] => []
  | skip + 1, _ :: bs => strings.replaceFrom old new skip bs
  | 0, b :: bs =>
    if old.isPrefixOf (b :: bs) then new ++ strings.replaceFrom old new (old.length - 1) bs
    else b :: strings.replaceFrom old new 0 bs

/-- The function `strings.ReplaceAll(s, old, new)` for a non-empty `old`, as at
both call sites: every non-overlapping occurrence of `old`, leftmost first,
is replaced by `new`. -/
def strings.ReplaceAll (s old new : GoString) : GoString :=
  strings.replaceFrom old new 0 s

/-! ## `regexp`, for the one shape of expression the package compiles -/

/-- A compiled expression of the shape `[^r₁r₂…]+`: one or more bytes outside
every listed range. -/
structure Regexp where
  ranges : List (UInt8 × UInt8)
  deriving DecidableEq

/-- The ranges `x-y` of a character class up to the closing bracket, and the rest
of the expression. -/
def regexp.parseRanges : GoString → Option (List (UInt8 × UInt8) × GoString)
  | 93 :: rest => some ([], rest)
  | lo :: 45 :: hi :: rest =>
    if lo ≤ hi ∧ lo ≠ 92 ∧ hi ≠ 92 then
      match regexp.parseRanges rest with
      | some (rs, rest1) => some ((lo, hi) :: rs, rest1)
      | none => none
    else none
  | _ => none

/-- The function `regexp.Compile` on expressions `[^…]+`; any other expression is
outside the modelled fragment and reported as an error. -/
def regexp.Compile (expr : GoString) : Except GoError Regexp :=
  match expr with
  | 91 :: 94 :: rest =>
    match regexp.parseRanges rest with
    | some (rs, [43]) => .ok ⟨rs⟩
    | _ => .error (.external (str "error parsing regexp"))
  | _ => .error (.external (str "error parsing regexp"))

/-- Whether one byte belongs to the negated class. A byte of a multi-byte or
invalid UTF-8 sequence is outside every ASCII range, so it belongs to it, as
the rune it is part of does. -/
def Regexp.matchByte (re : Regexp) (b : UInt8) : Bool :=
  !(re.ranges.any fun r => r.1 ≤ b && b ≤ r.2)

/-- The scan of `ReplaceAllString`: `inMatch` tells whether the previous byte
belonged to the current match, which the `+` extends greedily. -/
def Regexp.replaceFrom (re : Regexp) (repl : GoString) : Bool → GoString → GoString
  | _, [] => []
  | inMatch, b :: bs =>
    if re.matchByte b then
      if inMatch then re.replaceFrom repl true bs else repl ++ re.replaceFrom repl true bs
    else b :: re.replaceFrom repl false bs

/-- The method `(*Regexp).ReplaceAllString(src, repl)` for a `repl` without `$`:
every maximal run of matching bytes is replaced by `repl`. -/
def Regexp.ReplaceAllString (re : Regexp) (src repl : GoString) : GoString :=
  re.replaceFrom repl false src

/-! ## The package -/

/-- The package variable `document`: the schema for the project. -/
def document : GoString := str "
enum AllowedTerminacion \x7b
    AR
    ER
\tIR
\tOR
  \x7d

  enum AllowedTypeAffix \x7b
    PREFIX
    PREFIXIOID
    INFIX
    CIRCUMFIX
    INTERFIX
    DUPLIFIX
    TRANSFIX
    SIMULFIX
    SUPRAFIX
    DISFIX
    STEM
    SUFFIX
    SUFFIXOID
    NA
  \x7d

  enum AllowedTongue \x7b
    ENGLISH
    SPANISH
  \x7d

  enum AllowedCurrency \x7b
    USD
    ETHEREUM
    SPANK
    BOOTY
    BITCOIN
  \x7d

  enum MediaType \x7b
      AUDIO
      IMAGE
      TEXT
      VIDEO
  \x7d

  # Types

  type Activity \x7b
      id: ID!
      endTime: DateTime @search
      startTime: DateTime @search
      media: [Media] @hasInverse(field: activity)
      name: String @search(by: [hash])
      note: [Note] @hasInverse(field: activity)
      person: [Person] @hasInverse(field: activity)
      tag: [Tag] @hasInverse(field: activity)
  \x7d

  type Affix \x7b
    id: ID!
    example: [String] @search(by: [hash])
    meaning: [String] @search(by: [fulltext, hash])
    media: [Media] @hasInverse(field: affix)
    morpheme: String @search(by: [hash])
    note: [Note] @hasInverse(field: affix)
    tongue: AllowedTongue @search(by: [exact])
    type: [AllowedTypeAffix]
  \x7d

  type BlogPost \x7b
    id: ID!
    author: [Person] @hasInverse(field: blogPost)
    body: String @search(by: [fulltext])
    comment: [Comment] @hasInverse(field: blogPost)
    media: [Media] @hasInverse(field: blogPost)
    note: [Note] @hasInverse(field: blogPost)
    publishDate: DateTime @search
    published: Boolean
    tag: [Tag] @hasInverse(field: blogPost)
    title: String! @search(by: [hash])
  \x7d

  type Budget \x7b
    id: ID!
    budgetName: String! @search(by: [hash])
    budgetValue: Float @search
    media: [Media] @hasInverse(field: budget)
    note: [Note] @hasInverse(field: budget)
    partner: [Person] @hasInverse(field: budget)
    tag: [Tag] @hasInverse(field: budget)
    transaction: [Transaction] @hasInverse(field: budget)
  \x7d

  type Comment \x7b
    id: ID!
    author: [Person] @hasInverse(field: comment)
    blogPost: [BlogPost] @hasInverse(field: comment)
    body: String @search(by: [fulltext])
    comment: [Comment] @hasInverse(field: comment)
    media: [Media] @hasInverse(field: comment)
    note: [Note] @hasInverse(field: comment)
    publishDate: DateTime @search
    published: Boolean
    tag: [Tag] @hasInverse(field: comment)
\x7d

  type FinancialAccount \x7b
    id: ID!
    accountName: String! @search(by: [hash])
    currentValue: Float @search
    media: [Media] @hasInverse(field: financialAccount)
    note: [Note] @hasInverse(field: financialAccount)
    owner: [Person] @hasInverse(field: financialAccount)
    tag: [Tag] @hasInverse(field: financialAccount)
    transaction: [Transaction] @hasInverse(field: financialAccount)
  \x7d

  type Game \x7b
    id: ID!
    attempts: Int @search
    bulls: Int @search
    cows: Int @search
    guess: [String]
    note: [Note] @hasInverse(field: game)
    player: [Person] @hasInverse(field: game)
    score: Int @search
    tag: [Tag] @hasInverse(field: game)
    winningWord: String @search(by: [hash])
    won: Boolean
  \x7d

  type Media \x7b
    id: ID!
    activity: [Activity] @hasInverse(field: media)
    affix: [Affix] @hasInverse(field: media)
    blogPost: [BlogPost] @hasInverse(field: media)
    budget: [Budget] @hasInverse(field: media)
    comment: [Comment] @hasInverse(field: media)
    financialAccount: [FinancialAccount] @hasInverse(field: media)
    link: String
    note: [Note] @hasInverse(field: media)
    occurrance: DateTime @search
    person: [Person] @hasInverse(field: media)
    tag: [Tag] @hasInverse(field: media)
    transaction: [Transaction] @hasInverse(field: media)
    type: MediaType
    vendor: [Vendor] @hasInverse(field: media)
    verbo: [Verbo] @hasInverse(field: media)
    word: [Word] @hasInverse(field: media)
\x7d

type Note \x7b
    id: ID!
    activity: Activity @hasInverse(field: note)
    affix: [Affix] @hasInverse(field: note)
    blogPost: BlogPost @hasInverse(field: note)
    budget: Budget @hasInverse(field: note)
    comment: Comment @hasInverse(field: note)
    financialAccount: FinancialAccount @hasInverse(field: note)
    game: Game @hasInverse(field: note)
    media: Media @hasInverse(field: note)
    note: String @search(by: [term])
    person: Person @hasInverse(field: note)
    tag: Tag @hasInverse(field: note)
    transaction: Transaction @hasInverse(field: note)
    vendor: Vendor @hasInverse(field: note)
    verbo: Verbo @hasInverse(field: note)
    word: Word @hasInverse(field: note)
\x7d

type Person \x7b
    id: ID!
    activity: [Activity] @hasInverse(field: person)
    associate: [Person] @hasInverse(field: associate)
    blogPost: [BlogPost] @hasInverse(field: author)
    budget: [Budget] @hasInverse(field: partner)
    comment: [Comment] @hasInverse(field: author)
    email: String @search(by: [hash])
    financialAccount: [FinancialAccount] @hasInverse(field: owner)
    game: [Game] @hasInverse(field: player)
    guess: [String]
    isUser: Boolean
    media: [Media] @hasInverse(field: person)
    nickname: [String] @search(by: [hash])
    note: [Note] @hasInverse(field: person)
    passwordHash: String
    profileImageUrl: Media
    role: [Int] @search
    tag: [Tag] @hasInverse(field: person)
    transaction: [Transaction] @hasInverse(field: participant)
\x7d

  type Tag \x7b
    id: ID!
    activity: [Activity] @hasInverse(field: tag)
    blogPost: [BlogPost] @hasInverse(field: tag)
    budget: [Budget] @hasInverse(field: tag)
    comment: [Comment] @hasInverse(field: tag)
    financialAccount: [FinancialAccount] @hasInverse(field: tag)
    game: [Game] @hasInverse(field: tag)
    media: [Media] @hasInverse(field: tag)
    note: [Note] @hasInverse(field: tag)
    person: [Person] @hasInverse(field: tag)
    tagName: String @search(by: [hash])
    transaction: [Transaction] @hasInverse(field: tag)
    vendor: [Vendor] @hasInverse(field: tag)
  \x7d

  type Transaction \x7b
    id: ID!
    budget: [Budget] @hasInverse(field: transaction)
    currency: AllowedCurrency @search(by: [hash])
    financialAccount: [FinancialAccount] @hasInverse(field: transaction)
    media: [Media] @hasInverse(field: transaction)
    note: [Note] @hasInverse(field: transaction)
    occurrence: DateTime @search
    participant: [Person] @hasInverse(field: transaction)
    tag: [Tag] @hasInverse(field: transaction)
    transactionEvent: String @search(by: [hash])
    transactionValue: Float @search
    vendor: Vendor @hasInverse(field: transaction)
  \x7d

  type Vendor \x7b
    id: ID!
    media: [Media] @hasInverse(field: vendor)
    note: [Note] @hasInverse(field: vendor)
    tag: [Tag] @hasInverse(field: vendor)
    transaction: Transaction @hasInverse(field: vendor)
    vendorName: String @search(by: [hash])
  \x7d

  type Verbo \x7b
    id: ID!
    cambiar_de_irregular: String @search(by: [hash])
    categoria_de_irregular: String @search(by: [hash])
    english: String @search(by: [hash])
    spanish: String @search(by: [hash])
    grupo: Float @search
    irregular: Boolean
    reflexive: Boolean
    media: [Media] @hasInverse(field: verbo)
    note: [Note] @hasInverse(field: verbo)
    terminacion: AllowedTerminacion @search(by: [exact])
  \x7d

  type Word \x7b
    id: ID!
    definition: String @search(by: [fulltext])
    f_points: Int @search
    s_points: Int @search
    in_game: Boolean
    isFourLetterWord: Boolean
    media: [Media] @hasInverse(field: word)
    note: [Note] @hasInverse(field: word)
    tier: Int @search
    tongue: String @search(by: [hash])
    word: String @search(by: [hash])
  \x7d
"

/-- The sentinel `ErrNoSchemaExists`. -/
def ErrNoSchemaExists : error := errors.New (str "no schema exists")

/-- The sentinel `ErrInvalidSchema`. -/
def ErrInvalidSchema : error := errors.New (str "schema doesn't match")

/-- The database client `*graphql.GraphQL` of `github.com/ardanlabs/graphql`, which
is outside the package: a transition system over a state `σ` of the outside
world, with `ρ` the type of decoded responses. `QueryWithVars` returns its
error together with what it stored in the response value. -/
structure GraphQL (σ ρ : Type) where
  CmdAdmin : GoString
  Do : σ → GoString → GoString → error × σ
  QueryWithVars : σ → GoString → GoString → List (GoString × GoString) → (error × ρ) × σ

/-- What the package uses of `context`, `time` and `encoding/json`: `ctx.Err()`,
`time.Sleep` and `json.Marshal` of a decoded response. -/
structure Runtime (σ ρ : Type) where
  ctxErr : σ → error
  Sleep : Nat → σ → σ
  Marshal : ρ → GoString × error

/-- The constant `time.Second`, in nanoseconds. -/
def time.Second : Nat := 1000000000

/-- An operation issued to the outside world, as recorded in a run. -/
inductive Op where
  | Do (command body : GoString)
  | QueryWithVars (command query : GoString) (vars : List (GoString × GoString))
  | Sleep (d : Nat)
  deriving DecidableEq

/-- How a call ends: it returns a value or panics at run time. -/
inductive Result (α : Type) where
  | ret (a : α)
  | panic
  deriving DecidableEq

/-- The type `Schema`. -/
structure Schema (σ ρ : Type) where
  graphql : GraphQL σ ρ
  document : GoString

/-- The function `New`. -/
def New {σ ρ : Type} (graphql : GraphQL σ ρ) : Schema σ ρ :=
  { graphql := graphql, document := document }

variable {σ ρ : Type}

/-- The method `validate`; its context argument is unused. -/
def Schema.validate (s : Schema σ ρ) (schema : GoString) : Result error :=
  if schema = str "\x7b\"getGQLSchema\":null\x7d" ∨
      schema = str "\x7b\"getGQLSchema\":\x7b\"schema\":\"\"\x7d\x7d" then
    .ret ErrNoSchemaExists
  else if schema.length < 27 then
    .ret ErrInvalidSchema
  else
    match regexp.Compile (str "[^a-zA-Z0-9]+") with
    | .error err => .ret (errors.Wrap (some err) (str "regex compile"))
    | .ok reg =>
      let exp := strings.ReplaceAll s.document (str "\\n") (str "")
      let exp := reg.ReplaceAllString exp (str "")
      match sliceFrom schema 27 with
      | none => .panic
      | some tail =>
        let schema := strings.ReplaceAll tail (str "\\n") (str "")
        let schema := strings.ReplaceAll schema (str "\\t") (str "")
        let schema := reg.ReplaceAllString schema (str "")
        if exp ≠ schema then .ret ErrInvalidSchema else .ret none

/-- The text of the schema read. -/
def getQuery : GoString := str "query \x7b getGQLSchema \x7b schema \x7d\x7d"

/-- The text of the schema mutation in `Create`. -/
def updateQuery : GoString :=
  str "mutation updateGQLSchema($schema: String!) \x7b\n\t\tupdateGQLSchema(input: \x7b\n\t\t\tset: \x7b schema: $schema \x7d\n\t\t\x7d) \x7b\n\t\t\tgqlSchema \x7b\n\t\t\t\tschema\n\t\t\t\x7d\n\t\t\x7d\n\t\x7d"

/-- The method `query`: one schema read, then `json.Marshal` of the response. -/
def Schema.query (s : Schema σ ρ) (rt : Runtime σ ρ) (st : σ) : (GoString × error) × σ :=
  match s.graphql.QueryWithVars st s.graphql.CmdAdmin getQuery [] with
  | ((some err, _), st1) => ((str "", errors.Wrap (some err) (str "query schema")), st1)
  | ((none, result), st1) =>
    match rt.Marshal result with
    | (_, some err) => ((str "", errors.Wrap (some err) (str "marshal schema")), st1)
    | (data, none) => ((data, none), st1)

/-- The operation that `query` issues. -/
def Schema.queryOp (s : Schema σ ρ) : Op := .QueryWithVars s.graphql.CmdAdmin getQuery []

/-- The method `retrieve`. The loop of the source has no bound of its own; `fuel`
bounds the number of iterations and `none` says that it ran out. The result
carries the operations issued, in order. -/
def Schema.retrieve (s : Schema σ ρ) (rt : Runtime σ ρ) :
    Nat → σ → Option ((GoString × error) × σ × List Op)
  | 0, _ => none
  | fuel + 1, st =>
    match s.query rt st with
    | ((_, some err), st1) =>
      if strings.Contains err.Error (str "Server not ready") then
        if rt.ctxErr st1 ≠ none then
          some ((str "", errors.Wrap (some err) (str "server not ready")), st1, [s.queryOp])
        else
          match s.retrieve rt fuel (rt.Sleep (2 * time.Second) st1) with
          | none => none
          | some (r, st2, ops) => some (r, st2, s.queryOp :: Op.Sleep (2 * time.Second) :: ops)
      else
        some ((str "", errors.Wrap (some err) (str "server not ready")), st1, [s.queryOp])
    | ((schema, none), st1) => some ((schema, none), st1, [s.queryOp])

/-- The operation of the schema mutation in `Create`. -/
def Schema.updateOp (s : Schema σ ρ) : Op :=
  .QueryWithVars s.graphql.CmdAdmin updateQuery [(str "schema", s.document)]

/-- The method `DropAll`. -/
def Schema.DropAll (s : Schema σ ρ) (rt : Runtime σ ρ) (fuel : Nat) (st : σ) :
    Option (Result error × σ × List Op) :=
  let query := str "\x7b\"drop_all\": true\x7d"
  match s.graphql.Do st (str "alter") query with
  | (some err, st1) =>
    some (.ret (errors.Wrap (some err) (str "dropping schema and data")), st1,
      [Op.Do (str "alter") query])
  | (none, st1) =>
    match s.retrieve rt fuel st1 with
    | none => none
    | some ((_, some err), st2, ops) =>
      some (.ret (errors.Wrap (some err) (str "can't validate schema, db not ready")), st2,
        Op.Do (str "alter") query :: ops)
    | some ((schema, none), st2, ops) =>
      match s.validate schema with
      | .panic => some (.panic, st2, Op.Do (str "alter") query :: ops)
      | .ret err =>
        if err ≠ ErrNoSchemaExists then
          some (.ret (errors.Wrap err (str "unable to drop schema and data")), st2,
            Op.Do (str "alter") query :: ops)
        else some (.ret none, st2, Op.Do (str "alter") query :: ops)

/-- The method `Create`. -/
def Schema.Create (s : Schema σ ρ) (rt : Runtime σ ρ) (fuel : Nat) (st : σ) :
    Option (Result error × σ × List Op) :=
  match s.retrieve rt fuel st with
  | none => none
  | some ((_, some err), st1, ops1) =>
    some (.ret (errors.Wrap (some err) (str "can't create schema, db not ready")), st1, ops1)
  | some ((schema, none), st1, ops1) =>
    match s.validate schema with
    | .panic => some (.panic, st1, ops1)
    | .ret none => some (.ret none, st1, ops1)
    | .ret (some _) =>
      let vars := [(str "schema", s.document)]
      match s.graphql.QueryWithVars st1 s.graphql.CmdAdmin updateQuery vars with
      | ((some err, _), st2) =>
        some (.ret (errors.Wrap (some err) (str "create schema")), st2, ops1 ++ [s.updateOp])
      | ((none, _), st2) =>
        match s.retrieve rt fuel st2 with
        | none => none
        | some ((_, some err), st3, ops3) =>
          some (.ret (errors.Wrap (some err) (str "can't create schema, db not ready")), st3,
            ops1 ++ s.updateOp :: ops3)
        | some ((schema, none), st3, ops3) =>
          match s.validate schema with
          | .panic => some (.panic, st3, ops1 ++ s.updateOp :: ops3)
          | .ret err =>
            if err ≠ none then
              some (.ret (errors.Wrap err (str "invalid schema")), st3, ops1 ++ s.updateOp :: ops3)
            else some (.ret none, st3, ops1 ++ s.updateOp :: ops3)

/-! ## The texts and runs that the properties are about -/

/-- The compiled form of the expression in `validate`. -/
def alnumRe : Regexp := ⟨[(97, 122), (65, 90), (48, 57)]⟩

/-- Whether a byte is an ASCII letter or digit. -/
def isAlnum (b : UInt8) : Bool := !alnumRe.matchByte b

/-- Canonicalization of the live text in `validate`: the three calls applied to
`schema[27:]`. -/
def canonLive (x : GoString) : GoString :=
  alnumRe.ReplaceAllString
    (strings.ReplaceAll (strings.ReplaceAll x (str "\\n") (str "")) (str "\\t") (str "")) (str "")

/-- Canonicalization of the document in `validate`: the two calls applied to
`s.document`. -/
def canonDoc (x : GoString) : GoString :=
  alnumRe.ReplaceAllString (strings.ReplaceAll x (str "\\n") (str "")) (str "")

/-- The bytes of a JSON string for a document in which only newline and tab need
an escape: newline is written as backslash-n, tab as backslash-t. -/
def escape : GoString → GoString
  | [] => []
  | b :: bs => (if b = 10 then str "\\n" else if b = 9 then str "\\t" else [b]) ++ escape bs

/-- The 27 bytes before the schema text in the marshalled response. -/
def envelopePrefix : GoString := str "\x7b\"getGQLSchema\":\x7b\"schema\":\""

/-- The bytes after the schema text in the marshalled response. -/
def envelopeSuffix : GoString := str "\"\x7d\x7d"

/-- The text `query` returns when the server stores the document `d`. -/
def liveText (d : GoString) : GoString := envelopePrefix ++ escape d ++ envelopeSuffix

/-- Whether a byte is a space, a tab or a newline. -/
def isBlank (b : UInt8) : Bool := b = 32 || b = 9 || b = 10

/-- The text of `escape` once the first call of `strings.ReplaceAll` has deleted
every backslash-n. -/
def escapeTabs : GoString → GoString
  | [] => []
  | b :: bs => (if b = 10 then [] else if b = 9 then [92, 116] else [b]) ++ escapeTabs bs

/-- The text for which `validate` reports that no schema field exists. -/
def noSchemaNull : GoString := str "\x7b\"getGQLSchema\":null\x7d"

/-- The text for which `validate` reports an empty schema string. -/
def noSchemaEmpty : GoString := str "\x7b\"getGQLSchema\":\x7b\"schema\":\"\"\x7d\x7d"

/-- A scripted outside world: the answers the database client will give to the
calls to come, each an error and a response text, whether the context is
done, and the time slept so far. -/
structure World where
  answers : List (error × GoString)
  cancelled : Bool
  clock : Nat
  deriving DecidableEq

/-- The next answer of the script; a finished script answers with an error. -/
def World.next (w : World) : (error × GoString) × World :=
  match w.answers with
  | [] => ((some (.external (str "EOF")), str ""), w)
  | a :: rest => (a, { w with answers := rest })

/-- The database client of a scripted world. -/
def scriptedClient : GraphQL World GoString where
  CmdAdmin := str "admin"
  Do := fun w _ _ => ((w.next).1.1, (w.next).2)
  QueryWithVars := fun w _ _ _ => w.next

/-- The context, clock and encoder of a scripted world: responses are already
texts, which `Marshal` hands on. -/
def scriptedRuntime : Runtime World GoString where
  ctxErr := fun w => if w.cancelled then some (.external (str "context deadline exceeded")) else none
  Sleep := fun d w => { w with clock := w.clock + d }
  Marshal := fun r => (r, none)

/-- Whether a byte is ASCII punctuation. -/
def isPunct (b : UInt8) : Bool :=
  (33 ≤ b && b ≤ 47) || (58 ≤ b && b ≤ 64) || (91 ≤ b && b ≤ 96) || (123 ≤ b && b ≤ 126)

/-- Whether a byte is an ASCII letter, a digit, a space, a tab, a newline, or
punctuation other than the double quote, the backslash, `<`, `>` and `&`. -/
def isPlain (b : UInt8) : Bool :=
  isAlnum b || isBlank b ||
    (isPunct b && !(b = 34 || b = 92 || b = 60 || b = 62 || b = 38))

/-- The document with the field name `morpheme` of `Affix`, at byte 977, renamed
to `morphem`. -/
def documentRenamed : GoString := document.take 977 ++ str "morphem" ++ document.drop (977 + 8)

/-- The document without its comment line, the ten bytes from byte 458. -/
def documentUncommented : GoString := document.take 458 ++ document.drop (458 + 10)

/-- Whether an operation is the schema mutation. -/
def Op.isUpdate : Op → Bool
  | .QueryWithVars _ query _ => query = updateQuery
  | _ => false

/-- The operations of a run of `retrieve` with `k` retries. -/
def Schema.retryOps (s : Schema σ ρ) : Nat → List Op
  | 0 => [s.queryOp]
  | k + 1 => s.queryOp :: Op.Sleep (2 * time.Second) :: s.retryOps k

/-- The state after `k` rounds in each of which `query` fails with a message that
contains "Server not ready" while the context is not done, and `retrieve`
sleeps; `none` when one of the rounds is not of that kind. -/
def Schema.notReadyRounds (s : Schema σ ρ) (rt : Runtime σ ρ) : Nat → σ → Option σ
  | 0, st => some st
  | k + 1, st =>
    match s.query rt st with
    | ((_, some err), st1) =>
      if strings.Contains err.Error (str "Server not ready") = true ∧ rt.ctxErr st1 = none then
        s.notReadyRounds rt k (rt.Sleep (2 * time.Second) st1)
      else none
    | ((_, none), _) => none

/-- What `retrieve` returns for the outcome of the query that ends its loop. -/
def retrieveResult (outcome : GoString × error) : GoString × error :=
  match outcome with
  | (_, some err) => (str "", errors.Wrap (some err) (str "server not ready"))
  | (schema, none) => (schema, none)

/-! ## Properties -/

/-! ### The library model -/

theorem str_bsn : str "\\n" = [92, 110] := by decide

theorem str_bst : str "\\t" = [92, 116] := by decide

theorem str_empty : str "" = [] := rfl

theorem compile_alnum : regexp.Compile (str "[^a-zA-Z0-9]+") = .ok alnumRe := by rfl

theorem regexp_replaceFrom_nil (re : Regexp) (m : Bool) (x : GoString) :
    re.replaceFrom [] m x = x.filter fun b => !re.matchByte b := by
  induction x generalizing m with
  | nil => simp [Regexp.replaceFrom]
  | cons b bs ih =>
    by_cases h : re.matchByte b = true
    · cases m <;> simp [Regexp.replaceFrom, h, ih]
    · simp [Regexp.replaceFrom, h, ih]

theorem replaceAllString_alnum (x : GoString) :
    alnumRe.ReplaceAllString x (str "") = x.filter isAlnum := by
  unfold Regexp.ReplaceAllString
  rw [str_empty, regexp_replaceFrom_nil]
  rfl

theorem replaceFrom_hit (c : UInt8) (bs : GoString) :
    strings.replaceFrom [92, c] [] 0 (92 :: c :: bs) = strings.replaceFrom [92, c] [] 0 bs := by
  simp [strings.replaceFrom, List.isPrefixOf]

theorem replaceFrom_miss (c d : UInt8) (bs : GoString) (h : d ≠ c) :
    strings.replaceFrom [92, c] [] 0 (92 :: d :: bs) =
      92 :: strings.replaceFrom [92, c] [] 0 (d :: bs) := by
  have h2 : (c == d) = false := by simpa using fun e => h e.symm
  simp [strings.replaceFrom, List.isPrefixOf, h2]

theorem replaceFrom_other (c b : UInt8) (bs : GoString) (h : b ≠ 92) :
    strings.replaceFrom [92, c] [] 0 (b :: bs) = b :: strings.replaceFrom [92, c] [] 0 bs := by
  have h2 : ((92 : UInt8) == b) = false := by simpa using fun e => h e.symm
  simp [strings.replaceFrom, List.isPrefixOf, h2]

theorem replaceFrom_no_backslash (c : UInt8) (x : GoString) (h : ∀ b ∈ x, b ≠ 92) :
    strings.replaceFrom [92, c] [] 0 x = x := by
  induction x with
  | nil => simp [strings.replaceFrom]
  | cons b bs ih =>
    rw [replaceFrom_other c b bs (h b (by simp)), ih fun a ha => h a (by simp [ha])]

theorem isAlnum_ne_backslash (b : UInt8) (h : isAlnum b = true) : b ≠ 92 := by
  intro e
  subst e
  revert h
  decide

theorem canonLive_of_alnum (x : GoString) (h : ∀ b ∈ x, isAlnum b = true) : canonLive x = x := by
  have hb : ∀ b ∈ x, b ≠ 92 := fun b hb => isAlnum_ne_backslash b (h b hb)
  unfold canonLive strings.ReplaceAll
  rw [replaceAllString_alnum, str_bsn, str_bst, str_empty, replaceFrom_no_backslash 110 x hb,
    replaceFrom_no_backslash 116 x hb]
  exact List.filter_eq_self.2 h

theorem canonDoc_of_alnum (x : GoString) (h : ∀ b ∈ x, isAlnum b = true) : canonDoc x = x := by
  have hb : ∀ b ∈ x, b ≠ 92 := fun b hb => isAlnum_ne_backslash b (h b hb)
  unfold canonDoc strings.ReplaceAll
  rw [replaceAllString_alnum, str_bsn, str_empty, replaceFrom_no_backslash 110 x hb]
  exact List.filter_eq_self.2 h

theorem canonLive_alnum (x : GoString) : ∀ b ∈ canonLive x, isAlnum b = true := by
  intro b hb
  unfold canonLive at hb
  rw [replaceAllString_alnum] at hb
  exact (List.mem_filter.1 hb).2

theorem canonDoc_alnum (x : GoString) : ∀ b ∈ canonDoc x, isAlnum b = true := by
  intro b hb
  unfold canonDoc at hb
  rw [replaceAllString_alnum] at hb
  exact (List.mem_filter.1 hb).2

/-- C9. Canonicalization is idempotent: for every text `x`, the canonicalization
that `validate` applies to the live text (delete every backslash-n, then every
backslash-t, then every run of bytes that are not ASCII letters or digits)
returns its own output unchanged when applied to it, and so does the
canonicalization applied to the document (delete every backslash-n, then the
runs of bytes that are not letters or digits). -/
theorem canonicalization_idempotent (x : GoString) :
    canonLive (canonLive x) = canonLive x ∧ canonDoc (canonDoc x) = canonDoc x :=
  ⟨canonLive_of_alnum _ (canonLive_alnum x), canonDoc_of_alnum _ (canonDoc_alnum x)⟩

/-! ### `validate` on the text of a stored document -/

theorem replace_newlines_escape (d t : GoString) (hd : ∀ b ∈ d, b ≠ 92) :
    strings.replaceFrom [92, 110] [] 0 (escape d ++ t) =
      escapeTabs d ++ strings.replaceFrom [92, 110] [] 0 t := by
  induction d with
  | nil => simp [escape, escapeTabs]
  | cons b bs ih =>
    have ih1 := ih fun a ha => hd a (by simp [ha])
    by_cases h10 : b = 10
    · subst h10
      simp only [escape, escapeTabs, str_bsn, if_true, List.cons_append, List.nil_append]
      rw [replaceFrom_hit, ih1]
    · by_cases h9 : b = 9
      · subst h9
        have e : escape (9 :: bs) = 92 :: 116 :: escape bs := by
          simp [escape, str_bst]
        have e2 : escapeTabs (9 :: bs) = 92 :: 116 :: escapeTabs bs := by
          simp [escapeTabs]
        rw [e, e2]
        simp only [List.cons_append]
        rw [replaceFrom_miss 110 116 _ (by decide), replaceFrom_other 110 116 _ (by decide), ih1]
      · have e : escape (b :: bs) = b :: escape bs := by simp [escape, h10, h9]
        have e2 : escapeTabs (b :: bs) = b :: escapeTabs bs := by simp [escapeTabs, h10, h9]
        rw [e, e2]
        simp only [List.cons_append]
        rw [replaceFrom_other 110 b _ (hd b (by simp)), ih1]

theorem replace_tabs_escapeTabs (d t : GoString) (hd : ∀ b ∈ d, b ≠ 92) :
    strings.replaceFrom [92, 116] [] 0 (escapeTabs d ++ t) =
      d.filter (fun b => !(b = 10 || b = 9)) ++ strings.replaceFrom [92, 116] [] 0 t := by
  induction d with
  | nil => simp [escapeTabs]
  | cons b bs ih =>
    have ih1 := ih fun a ha => hd a (by simp [ha])
    by_cases h10 : b = 10
    · subst h10
      simpa [escapeTabs] using ih1
    · by_cases h9 : b = 9
      · subst h9
        have e2 : escapeTabs (9 :: bs) = 92 :: 116 :: escapeTabs bs := by
          simp [escapeTabs]
        rw [e2]
        simp only [List.cons_append]
        rw [replaceFrom_hit, ih1]
        simp
      · have e2 : escapeTabs (b :: bs) = b :: escapeTabs bs := by simp [escapeTabs, h10, h9]
        rw [e2]
        simp only [List.cons_append]
        rw [replaceFrom_other 116 b _ (hd b (by simp)), ih1]
        simp [h10, h9]

theorem isAlnum_not_blank (b : UInt8) (h : isAlnum b = true) : (b = 10 ∨ b = 9) → False := by
  rintro (e | e) <;> subst e <;> revert h <;> decide

theorem filter_alnum_unescaped (d : GoString) :
    (d.filter fun b => !(b = 10 || b = 9)).filter isAlnum = d.filter isAlnum := by
  rw [List.filter_filter]
  apply List.filter_congr
  intro b _
  by_cases h : isAlnum b = true
  · have := isAlnum_not_blank b h
    simp only [h, Bool.true_and]
    simpa using this
  · simp [h]

/-- The canonical form of an escaped document followed by a text without
backslash: the letters and digits of both. -/
theorem canonLive_escape (d t : GoString) (hd : ∀ b ∈ d, b ≠ 92) (ht : ∀ b ∈ t, b ≠ 92) :
    canonLive (escape d ++ t) = d.filter isAlnum ++ t.filter isAlnum := by
  unfold canonLive strings.ReplaceAll
  rw [replaceAllString_alnum, str_bsn, str_bst, str_empty, replace_newlines_escape d t hd,
    replaceFrom_no_backslash 110 t ht, replace_tabs_escapeTabs d t hd,
    replaceFrom_no_backslash 116 t ht, List.filter_append, filter_alnum_unescaped]

theorem canonDoc_no_backslash (d : GoString) (hd : ∀ b ∈ d, b ≠ 92) :
    canonDoc d = d.filter isAlnum := by
  unfold canonDoc strings.ReplaceAll
  rw [replaceAllString_alnum, str_bsn, str_empty, replaceFrom_no_backslash 110 d hd]

/-- The branches of `validate`, with the compiled expression and the slice resolved. -/
theorem validate_eq (s : Schema σ ρ) (schema : GoString) :
    s.validate schema =
      if schema = noSchemaNull ∨ schema = noSchemaEmpty then .ret ErrNoSchemaExists
      else if schema.length < 27 then .ret ErrInvalidSchema
      else if canonDoc s.document = canonLive (schema.drop 27) then .ret none
      else .ret ErrInvalidSchema := by
  unfold Schema.validate
  rw [compile_alnum]
  by_cases h1 : schema = noSchemaNull ∨ schema = noSchemaEmpty
  · have h1' := h1
    unfold noSchemaNull noSchemaEmpty at h1'
    rw [if_pos h1, if_pos h1']
  · have h1' := h1
    unfold noSchemaNull noSchemaEmpty at h1'
    rw [if_neg h1, if_neg h1']
    by_cases h2 : schema.length < 27
    · rw [if_pos h2, if_pos h2]
    · rw [if_neg h2, if_neg h2]
      have h3 : sliceFrom schema 27 = some (schema.drop 27) := by
        unfold sliceFrom
        rw [if_pos (by omega)]
      simp only [h3]
      by_cases h4 : canonDoc s.document = canonLive (schema.drop 27)
      · rw [if_pos h4]
        unfold canonDoc canonLive at h4
        simp [h4]
      · rw [if_neg h4]
        unfold canonDoc canonLive at h4
        simp [h4]

theorem envelopePrefix_length : envelopePrefix.length = 27 := by decide

theorem escape_eq_nil (d : GoString) : escape d = [] ↔ d = [] := by
  cases d with
  | nil => simp [escape]
  | cons b bs =>
    by_cases h10 : b = 10
    · simp [escape, h10, str_bsn]
    · by_cases h9 : b = 9
      · simp [escape, h9, str_bst]
      · simp [escape, h10, h9]

theorem liveText_ne_null (d : GoString) : liveText d ≠ noSchemaNull := by
  intro h
  have h2 := congrArg List.length h
  have h3 : noSchemaNull.length = 21 := by decide
  have h4 : envelopeSuffix.length = 3 := by decide
  rw [h3] at h2
  simp only [liveText, List.length_append, envelopePrefix_length, h4] at h2
  omega

theorem liveText_eq_empty (d : GoString) : liveText d = noSchemaEmpty ↔ d = [] := by
  have h0 : noSchemaEmpty = envelopePrefix ++ [] ++ envelopeSuffix := by decide
  constructor
  · intro h
    rw [h0] at h
    unfold liveText at h
    have h2 : escape d = [] := by simpa using h
    exact (escape_eq_nil d).1 h2
  · intro h
    subst h
    rw [h0]
    rfl

/-- The outcome of `validate` on the text of a stored document without backslash. -/
theorem validate_liveText (s : Schema σ ρ) (d : GoString) (hd : ∀ b ∈ d, b ≠ 92) :
    s.validate (liveText d) =
      if d = [] then .ret ErrNoSchemaExists
      else if canonDoc s.document = d.filter isAlnum then .ret none
      else .ret ErrInvalidSchema := by
  rw [validate_eq]
  have hs : ∀ b ∈ envelopeSuffix, b ≠ 92 := by decide
  have hf : envelopeSuffix.filter isAlnum = [] := by decide
  have hdrop : (liveText d).drop 27 = escape d ++ envelopeSuffix := by
    unfold liveText
    rw [List.append_assoc, ← envelopePrefix_length, List.drop_left]
  have hlen : ¬ (liveText d).length < 27 := by
    simp only [liveText, List.length_append, envelopePrefix_length]
    omega
  by_cases h : d = []
  · rw [if_pos (Or.inr ((liveText_eq_empty d).2 h)), if_pos h]
  · have h1 : ¬ (liveText d = noSchemaNull ∨ liveText d = noSchemaEmpty) := by
      rintro (e | e)
      · exact liveText_ne_null d e
      · exact h ((liveText_eq_empty d).1 e)
    rw [if_neg h1, if_neg hlen, if_neg h, hdrop, canonLive_escape d _ hd hs, hf, List.append_nil]

/-! ### The document of the package -/

theorem isPlain_ne_backslash (b : UInt8) (h : isPlain b = true) : b ≠ 92 := by
  intro e
  subst e
  revert h
  decide

theorem document_plain : ∀ b ∈ document, isPlain b = true := by
  have h : document.all isPlain = true := by decide!
  exact List.all_eq_true.1 h

theorem document_no_backslash : ∀ b ∈ document, b ≠ 92 :=
  fun b hb => isPlain_ne_backslash b (document_plain b hb)

theorem document_ne_nil : document ≠ [] := by
  have h : document.isEmpty = false := by decide!
  intro e
  rw [e] at h
  exact Bool.noConfusion h

theorem document_morpheme : (document.drop 977).take 8 = str "morpheme" := by decide!

theorem document_comment : (document.drop 458).take 10 = str "  # Types\n" := by decide!

theorem document_split (i n : Nat) :
    document = document.take i ++ (document.drop i).take n ++ document.drop (i + n) := by
  rw [List.append_assoc, ← List.drop_drop, List.take_append_drop, List.take_append_drop]

theorem filter_splice_ne (a m m' b : GoString)
    (h : (m.filter isAlnum).length ≠ (m'.filter isAlnum).length) :
    (a ++ m ++ b).filter isAlnum ≠ (a ++ m' ++ b).filter isAlnum := by
  intro e
  have e2 := congrArg List.length e
  simp only [List.filter_append, List.length_append] at e2
  omega

theorem documentRenamed_no_backslash : ∀ b ∈ documentRenamed, b ≠ 92 := by
  intro b hb
  unfold documentRenamed at hb
  rcases List.mem_append.1 hb with h | h
  · rcases List.mem_append.1 h with h | h
    · exact document_no_backslash b (List.mem_of_mem_take h)
    · have h2 : ∀ a ∈ str "morphem", a ≠ 92 := by decide!
      exact h2 b h
  · exact document_no_backslash b (List.mem_of_mem_drop h)

theorem documentUncommented_no_backslash : ∀ b ∈ documentUncommented, b ≠ 92 := by
  intro b hb
  unfold documentUncommented at hb
  rcases List.mem_append.1 hb with h | h
  · exact document_no_backslash b (List.mem_of_mem_take h)
  · exact document_no_backslash b (List.mem_of_mem_drop h)

theorem documentRenamed_ne_nil : documentRenamed ≠ [] := by
  unfold documentRenamed
  intro e
  have e2 := congrArg List.length e
  have h : (str "morphem").length = 7 := by decide
  simp only [List.length_append, h, List.length_nil] at e2
  omega

theorem documentUncommented_ne_nil : documentUncommented ≠ [] := by
  have h : documentUncommented.isEmpty = false := by decide!
  intro e
  rw [e] at h
  exact Bool.noConfusion h

theorem document_filter_ne_renamed :
    document.filter isAlnum ≠ documentRenamed.filter isAlnum := by
  have h := document_split 977 8
  rw [document_morpheme] at h
  have h2 := filter_splice_ne (document.take 977) (str "morpheme") (str "morphem")
    (document.drop (977 + 8)) (by decide)
  rw [← h] at h2
  exact h2

theorem document_filter_ne_uncommented :
    document.filter isAlnum ≠ documentUncommented.filter isAlnum := by
  have h := document_split 458 10
  rw [document_comment] at h
  have h2 := filter_splice_ne (document.take 458) (str "  # Types\n") []
    (document.drop (458 + 10)) (by decide)
  rw [← h, List.append_nil] at h2
  exact h2

theorem validate_document_liveText (g : GraphQL σ ρ) :
    (New g).validate (liveText document) = .ret none := by
  rw [validate_liveText _ _ document_no_backslash, if_neg document_ne_nil]
  have h : canonDoc (New g).document = document.filter isAlnum :=
    canonDoc_no_backslash document document_no_backslash
  rw [if_pos h]

theorem document_filter_ne_nil : document.filter isAlnum ≠ [] := by
  have h := document_split 977 8
  rw [document_morpheme] at h
  intro e
  rw [h] at e
  have e2 := congrArg List.length e
  have h8 : ((str "morpheme").filter isAlnum).length = 8 := by decide
  simp only [List.filter_append, List.length_append, h8, List.length_nil] at e2
  omega

theorem filter_alnum_of_not_blank (d : GoString) :
    (d.filter fun b => !isBlank b).filter isAlnum = d.filter isAlnum := by
  rw [List.filter_filter]
  apply List.filter_congr
  intro b _
  by_cases h : isAlnum b = true
  · have hb : isBlank b = false := by
      by_cases h32 : b = 32
      · subst h32
        revert h
        decide
      · have := isAlnum_not_blank b h
        simp only [isBlank, h32, decide_False, Bool.false_or]
        simpa using fun e => this (Or.symm e)
    simp [h, hb]
  · simp [h]

theorem validate_cases (s : Schema σ ρ) (schema : GoString) :
    s.validate schema = .ret none ∨ s.validate schema = .ret ErrNoSchemaExists ∨
      s.validate schema = .ret ErrInvalidSchema := by
  rw [validate_eq]
  split
  · exact Or.inr (Or.inl rfl)
  · split
    · exact Or.inr (Or.inr rfl)
    · split
      · exact Or.inl rfl
      · exact Or.inr (Or.inr rfl)

theorem validate_noSchemaNull (s : Schema σ ρ) :
    s.validate noSchemaNull = .ret ErrNoSchemaExists := by
  rw [validate_eq, if_pos (Or.inl rfl)]

/-- C4. Read-back of the document validates: for the Schema built by `New`, and for
every Schema whose document is non-empty and made only of ASCII letters,
digits, spaces, tabs, newlines and punctuation other than the double quote,
the backslash, `<`, `>` and `&`, `validate` returns nil on the text that
`query` returns when the server stores that document (the 27-byte prefix,
the document with newline written backslash-n and tab backslash-t, and the
closing bytes). So does the instance of the specification: the document
`type Affix { id: ID! }` against the live body with backslash-n and
indentation. -/
theorem readback_validates :
    (∀ g : GraphQL σ ρ, (New g).validate (liveText document) = .ret none) ∧
    (∀ s : Schema σ ρ, s.document ≠ [] → (∀ b ∈ s.document, isPlain b = true) →
      s.validate (liveText s.document) = .ret none) ∧
    (∀ s : Schema σ ρ, s.document = str "type Affix \x7b id: ID! \x7d" →
      s.validate (envelopePrefix ++ str "type Affix \x7b\\n  id: ID!\\n\x7d" ++ envelopeSuffix)
        = .ret none) := by
  refine ⟨validate_document_liveText, ?_, ?_⟩
  · intro s hne hp
    have hb : ∀ b ∈ s.document, b ≠ 92 := fun b hb => isPlain_ne_backslash b (hp b hb)
    rw [validate_liveText s _ hb, if_neg hne, if_pos (canonDoc_no_backslash _ hb)]
  · intro s hs
    have e : envelopePrefix ++ str "type Affix \x7b\\n  id: ID!\\n\x7d" ++ envelopeSuffix =
        liveText (str "type Affix \x7b\n  id: ID!\n\x7d") := by decide!
    have hb : ∀ b ∈ str "type Affix \x7b\n  id: ID!\n\x7d", b ≠ 92 := by decide!
    have hb2 : ∀ b ∈ str "type Affix \x7b id: ID! \x7d", b ≠ 92 := by decide!
    have hne : str "type Affix \x7b\n  id: ID!\n\x7d" ≠ [] := by decide!
    have hc : (str "type Affix \x7b id: ID! \x7d").filter isAlnum =
        (str "type Affix \x7b\n  id: ID!\n\x7d").filter isAlnum := by decide!
    rw [e, validate_liveText s _ hb, if_neg hne, hs, canonDoc_no_backslash _ hb2, if_pos hc]

/-- Witness of C4: the document of the package is non-empty and plain, and its
read-back validates. -/
theorem readback_validates_witness :
    (New scriptedClient).document ≠ [] ∧
    (∀ b ∈ (New scriptedClient).document, isPlain b = true) ∧
    (New scriptedClient).validate (liveText (New scriptedClient).document) = .ret none :=
  ⟨document_ne_nil, document_plain,
    readback_validates.2.1 (New scriptedClient) document_ne_nil document_plain⟩

/-- Counterexample to C5 as stated: the empty document and the document of one
space are equal once blanks are deleted, and neither has a quote or a
backslash, yet `validate` reports "no schema exists" on the text of the
first and "schema doesn't match" on the text of the second. -/
theorem whitespace_insensitive_counterexample :
    ([] : GoString).filter (fun b => !isBlank b) = ([32] : GoString).filter (fun b => !isBlank b) ∧
    (∀ b ∈ ([32] : GoString), b ≠ 34 ∧ b ≠ 92) ∧
    (New scriptedClient).validate (liveText []) = .ret ErrNoSchemaExists ∧
    (New scriptedClient).validate (liveText [32]) = .ret ErrInvalidSchema := by
  refine ⟨by decide, by decide, ?_, ?_⟩
  · rw [validate_liveText _ _ (by simp)]
    rfl
  · have hb : ∀ b ∈ ([32] : GoString), b ≠ 92 := by decide
    have hf : ([32] : GoString).filter isAlnum = [] := by decide
    rw [validate_liveText _ _ hb, if_neg (by simp), hf]
    have h : canonDoc (New scriptedClient).document ≠ [] := by
      show canonDoc document ≠ []
      rw [canonDoc_no_backslash document document_no_backslash]
      exact document_filter_ne_nil
    rw [if_neg h]

/-- C5, amended. Whitespace-insensitivity of `validate`: for every Schema and every
pair of documents `d1` and `d2` without double quote and backslash that are
equal once all spaces, tabs and newlines are deleted, and that are both
empty or both non-empty, `validate` returns the same outcome on the text of
`d1` as on the text of `d2`. -/
theorem whitespace_insensitive (s : Schema σ ρ) (d1 d2 : GoString)
    (h1 : ∀ b ∈ d1, b ≠ 34 ∧ b ≠ 92) (h2 : ∀ b ∈ d2, b ≠ 34 ∧ b ≠ 92)
    (he : d1.filter (fun b => !isBlank b) = d2.filter (fun b => !isBlank b))
    (hn : d1 = [] ↔ d2 = []) :
    s.validate (liveText d1) = s.validate (liveText d2) := by
  rw [validate_liveText s d1 fun b hb => (h1 b hb).2, validate_liveText s d2 fun b hb => (h2 b hb).2]
  have hf : d1.filter isAlnum = d2.filter isAlnum := by
    rw [← filter_alnum_of_not_blank d1, ← filter_alnum_of_not_blank d2, he]
  rw [hf]
  by_cases h : d1 = []
  · rw [if_pos h, if_pos (hn.1 h)]
  · rw [if_neg h, if_neg fun e => h (hn.2 e)]

/-- Witness of C5: the one-line and the indented form of a type. -/
theorem whitespace_insensitive_witness :
    (New scriptedClient).validate (liveText (str "type Affix \x7b id: ID! \x7d")) =
      (New scriptedClient).validate (liveText (str "type Affix \x7b\n\tid: ID!\n\x7d")) :=
  whitespace_insensitive (New scriptedClient) (str "type Affix \x7b id: ID! \x7d")
    (str "type Affix \x7b\n\tid: ID!\n\x7d") (by decide!) (by decide!) (by decide!) (by decide!)

/-- C6. Token-sensitivity of `validate`: with the document of the package, the text
of the document validates, and the text of the document with the field name
`morpheme` of `Affix` renamed to `morphem` is classified "schema doesn't
match"; a Schema whose document is the renamed one classifies the text of
the original document as "schema doesn't match" too. -/
theorem token_sensitive (g : GraphQL σ ρ) :
    (document.drop 977).take 8 = str "morpheme" ∧
    (New g).validate (liveText document) = .ret none ∧
    (New g).validate (liveText documentRenamed) = .ret ErrInvalidSchema ∧
    (Schema.mk g documentRenamed).validate (liveText document) = .ret ErrInvalidSchema := by
  refine ⟨document_morpheme, validate_document_liveText g, ?_, ?_⟩
  · rw [validate_liveText _ _ documentRenamed_no_backslash, if_neg documentRenamed_ne_nil]
    have h : canonDoc (New g).document ≠ documentRenamed.filter isAlnum := by
      show canonDoc document ≠ _
      rw [canonDoc_no_backslash document document_no_backslash]
      exact document_filter_ne_renamed
    rw [if_neg h]
  · rw [validate_liveText _ _ document_no_backslash, if_neg document_ne_nil]
    have h : canonDoc (Schema.mk g documentRenamed).document ≠ document.filter isAlnum := by
      show canonDoc documentRenamed ≠ _
      rw [canonDoc_no_backslash documentRenamed documentRenamed_no_backslash]
      exact fun e => document_filter_ne_renamed e.symm
    rw [if_neg h]

/-- C7. Classification by `validate`, for every Schema and every text: it returns
`ErrNoSchemaExists` exactly on the two texts of an absent schema; on every
other text shorter than 27 bytes, such as the text of `x` set to 1, it
returns `ErrInvalidSchema`; and it always returns one of nil,
`ErrNoSchemaExists` and `ErrInvalidSchema`, three different values: the
expression compiles, and the slice never panics. -/
theorem validate_classification (s : Schema σ ρ) (schema : GoString) :
    (s.validate schema = .ret ErrNoSchemaExists ↔
      (schema = str "\x7b\"getGQLSchema\":null\x7d" ∨
        schema = str "\x7b\"getGQLSchema\":\x7b\"schema\":\"\"\x7d\x7d")) ∧
    (schema.length < 27 →
      ¬ (schema = str "\x7b\"getGQLSchema\":null\x7d" ∨
        schema = str "\x7b\"getGQLSchema\":\x7b\"schema\":\"\"\x7d\x7d") →
      s.validate schema = .ret ErrInvalidSchema) ∧
    s.validate (str "\x7b\"x\":1\x7d") = .ret ErrInvalidSchema ∧
    (s.validate schema = .ret none ∨ s.validate schema = .ret ErrNoSchemaExists ∨
      s.validate schema = .ret ErrInvalidSchema) ∧
    (none ≠ ErrNoSchemaExists ∧ none ≠ ErrInvalidSchema ∧ ErrNoSchemaExists ≠ ErrInvalidSchema) ∧
    (∃ reg, regexp.Compile (str "[^a-zA-Z0-9]+") = .ok reg) ∧
    s.validate schema ≠ .panic := by
  have hd : ErrInvalidSchema ≠ ErrNoSchemaExists := by decide
  have hn : (none : error) ≠ ErrNoSchemaExists := by decide
  have hx : s.validate (str "\x7b\"x\":1\x7d") = .ret ErrInvalidSchema := by
    rw [validate_eq, if_neg (by decide), if_pos (by decide)]
  refine ⟨?_, ?_, hx, ?_, ⟨hn, by decide, fun e => hd e.symm⟩, ⟨alnumRe, compile_alnum⟩, ?_⟩
  · rw [validate_eq]
    show _ ↔ (schema = noSchemaNull ∨ schema = noSchemaEmpty)
    constructor
    · intro h
      by_contra hc
      rw [if_neg hc] at h
      split at h
      · exact hd (Result.ret.inj h)
      · split at h
        · exact hn (Result.ret.inj h)
        · exact hd (Result.ret.inj h)
    · intro h
      rw [if_pos h]
  · intro hl hc
    have hc2 : ¬ (schema = noSchemaNull ∨ schema = noSchemaEmpty) := hc
    rw [validate_eq, if_neg hc2, if_pos hl]
  · exact validate_cases s schema
  · rw [validate_eq]
    split
    · exact fun e => Result.noConfusion e
    · split
      · exact fun e => Result.noConfusion e
      · split <;> exact fun e => Result.noConfusion e

/-- Witness of C7: a text of 7 bytes that is neither text of an absent schema. -/
theorem validate_classification_witness :
    (New scriptedClient).validate (str "\x7b\"x\":1\x7d") = .ret ErrInvalidSchema :=
  (validate_classification (New scriptedClient) (str "\x7b\"x\":1\x7d")).2.1
    (by decide) (by decide)

/-- Counterexample to C10 as stated: with the document of the package, the text of
the document without its comment line does not validate. -/
theorem comment_removed_counterexample :
    (document.drop 458).take 10 = str "  # Types\n" ∧
    (New scriptedClient).validate (liveText documentUncommented) ≠ .ret none := by
  refine ⟨document_comment, ?_⟩
  rw [validate_liveText _ _ documentUncommented_no_backslash, if_neg documentUncommented_ne_nil]
  have h : canonDoc (New scriptedClient).document ≠ documentUncommented.filter isAlnum := by
    show canonDoc document ≠ _
    rw [canonDoc_no_backslash document document_no_backslash]
    exact document_filter_ne_uncommented
  rw [if_neg h]
  decide

/-- C10, amended. Canonicalization keeps the words of a comment: with the document
of the package, the text of the document without its comment line
`# Types` is classified "schema doesn't match", while the text of the
unmodified document validates; both documents have the same letters and
digits except for the word `Types` of the comment. -/
theorem comment_words_compared (g : GraphQL σ ρ) :
    (document.drop 458).take 10 = str "  # Types\n" ∧
    (New g).validate (liveText documentUncommented) = .ret ErrInvalidSchema ∧
    (New g).validate (liveText document) = .ret none ∧
    document.filter isAlnum =
      (document.take 458).filter isAlnum ++ str "Types" ++ (document.drop (458 + 10)).filter isAlnum ∧
    documentUncommented.filter isAlnum =
      (document.take 458).filter isAlnum ++ (document.drop (458 + 10)).filter isAlnum := by
  refine ⟨document_comment, ?_, validate_document_liveText g, ?_, ?_⟩
  · rw [validate_liveText _ _ documentUncommented_no_backslash, if_neg documentUncommented_ne_nil]
    have h : canonDoc (New g).document ≠ documentUncommented.filter isAlnum := by
      show canonDoc document ≠ _
      rw [canonDoc_no_backslash document document_no_backslash]
      exact document_filter_ne_uncommented
    rw [if_neg h]
  · have h := document_split 458 10
    rw [document_comment] at h
    have h2 : (str "  # Types\n").filter isAlnum = str "Types" := by decide
    conv_lhs => rw [h]
    rw [List.filter_append, List.filter_append, h2]
  · unfold documentUncommented
    rw [List.filter_append]

/-! ### Runs of `retrieve` -/

theorem retrieve_last (s : Schema σ ρ) (rt : Runtime σ ρ) (fuel : Nat) (st : σ)
    (h : (s.query rt st).1.2 = none ∨
      (∃ err, (s.query rt st).1.2 = some err ∧
        (strings.Contains err.Error (str "Server not ready") = false ∨
          rt.ctxErr (s.query rt st).2 ≠ none))) :
    s.retrieve rt (fuel + 1) st =
      some (retrieveResult (s.query rt st).1, (s.query rt st).2, [s.queryOp]) := by
  unfold Schema.retrieve
  rcases hq : s.query rt st with ⟨⟨text, e⟩, st1⟩
  rw [hq] at h
  cases e with
  | none => rfl
  | some err =>
    rcases h with h | ⟨err2, h, h2⟩
    · exact Option.noConfusion h
    · have e2 : err2 = err := (Option.some.inj h).symm
      subst e2
      simp only [retrieveResult]
      by_cases hc : strings.Contains err2.Error (str "Server not ready") = true
      · rcases h2 with h2 | h2
        · rw [hc] at h2
          exact Bool.noConfusion h2
        · simp only [hc, if_true]
          rw [if_pos h2]
      · simp only [hc]
        rfl

theorem retrieve_retry (s : Schema σ ρ) (rt : Runtime σ ρ) (fuel : Nat) (st : σ) (err : GoError)
    (h : (s.query rt st).1.2 = some err)
    (hc : strings.Contains err.Error (str "Server not ready") = true)
    (hx : rt.ctxErr (s.query rt st).2 = none) :
    s.retrieve rt (fuel + 1) st =
      match s.retrieve rt fuel (rt.Sleep (2 * time.Second) (s.query rt st).2) with
      | none => none
      | some (r, st2, ops) => some (r, st2, s.queryOp :: Op.Sleep (2 * time.Second) :: ops) := by
  conv_lhs => unfold Schema.retrieve
  rcases hq : s.query rt st with ⟨⟨text, e⟩, st1⟩
  rw [hq] at h hx
  simp only at h hx
  subst h
  simp only [hc, if_true]
  rw [if_neg (by simpa using hx)]

theorem retrieve_ops (s : Schema σ ρ) (rt : Runtime σ ρ) (fuel : Nat) :
    ∀ st r st1 ops, s.retrieve rt fuel st = some (r, st1, ops) →
      ∀ op ∈ ops, op = s.queryOp ∨ op = Op.Sleep (2 * time.Second) := by
  induction fuel with
  | zero =>
    intro st r st1 ops h
    exact Option.noConfusion h
  | succ n ih =>
    intro st r st1 ops h
    by_cases hq : (s.query rt st).1.2 = none ∨
      (∃ err, (s.query rt st).1.2 = some err ∧
        (strings.Contains err.Error (str "Server not ready") = false ∨
          rt.ctxErr (s.query rt st).2 ≠ none))
    · rw [retrieve_last s rt n st hq] at h
      have e := (Prod.mk.inj (Prod.mk.inj (Option.some.inj h)).2).2
      intro op hop
      rw [← e] at hop
      exact Or.inl (List.mem_singleton.1 hop)
    · rcases he : (s.query rt st).1.2 with _ | err
      · exact absurd (Or.inl he) hq
      · have hc : strings.Contains err.Error (str "Server not ready") = true := by
          by_contra hc
          exact hq (Or.inr ⟨err, he, Or.inl (by simpa using hc)⟩)
        have hx : rt.ctxErr (s.query rt st).2 = none := by
          by_contra hx
          exact hq (Or.inr ⟨err, he, Or.inr hx⟩)
        rw [retrieve_retry s rt n st err he hc hx] at h
        rcases hr : s.retrieve rt n (rt.Sleep (2 * time.Second) (s.query rt st).2) with
          _ | ⟨r2, st2, ops2⟩
        · rw [hr] at h
          exact Option.noConfusion h
        · rw [hr] at h
          have e := (Prod.mk.inj (Prod.mk.inj (Option.some.inj h)).2).2
          have ih2 := ih _ r2 st2 ops2 hr
          intro op hop
          rw [← e] at hop
          rcases List.mem_cons.1 hop with h1 | h1
          · exact Or.inl h1
          · rcases List.mem_cons.1 h1 with h2 | h2
            · exact Or.inr h2
            · exact ih2 op h2

theorem queryOp_not_update (s : Schema σ ρ) : s.queryOp.isUpdate = false := by
  have h : getQuery ≠ updateQuery := by decide!
  simp [Schema.queryOp, Op.isUpdate, h]

theorem updateOp_isUpdate (s : Schema σ ρ) : s.updateOp.isUpdate = true := by
  simp [Schema.updateOp, Op.isUpdate]

theorem retrieve_no_update (s : Schema σ ρ) (rt : Runtime σ ρ) (fuel : Nat) (st : σ)
    (r : GoString × error) (st1 : σ) (ops : List Op)
    (h : s.retrieve rt fuel st = some (r, st1, ops)) : ops.countP Op.isUpdate = 0 := by
  rw [List.countP_eq_zero]
  intro op hop
  rcases retrieve_ops s rt fuel st r st1 ops h op hop with e | e
  · rw [e, queryOp_not_update]
    decide
  · rw [e]
    decide

/-! ### Runs of `Create` and `DropAll` -/

/-- C2. `Create` on a matching schema: in every run in which the first `retrieve`
succeeds and `validate` classifies its text as matching, `Create` returns
nil and the operations of the run are those of that `retrieve` alone, with
no schema mutation among them and no second schema read; they are one
single read when the first query succeeds at once. -/
theorem Create_matching_no_write (s : Schema σ ρ) (rt : Runtime σ ρ) (fuel : Nat) (st st1 : σ)
    (text : GoString) (ops1 : List Op)
    (h1 : s.retrieve rt fuel st = some ((text, none), st1, ops1))
    (hv : s.validate text = .ret none) :
    s.Create rt fuel st = some (.ret none, st1, ops1) ∧
    ops1.countP Op.isUpdate = 0 ∧
    (∀ op ∈ ops1, op = s.queryOp ∨ op = Op.Sleep (2 * time.Second)) ∧
    ((s.query rt st).1.2 = none → ops1 = [s.queryOp]) := by
  refine ⟨?_, retrieve_no_update s rt fuel st _ st1 ops1 h1,
    retrieve_ops s rt fuel st _ st1 ops1 h1, ?_⟩
  · unfold Schema.Create
    rw [h1]
    simp only [hv]
  · intro hq
    cases fuel with
    | zero => exact Option.noConfusion h1
    | succ n =>
      rw [retrieve_last s rt n st (Or.inl hq)] at h1
      exact ((Prod.mk.inj (Prod.mk.inj (Option.some.inj h1)).2).2).symm

/-- C3. `Create` on a schema that does not match: in every run in which the first
`retrieve` succeeds and `validate` does not classify its text as matching,
`Create` issues the schema mutation, whose `schema` variable is the document.
If the mutation fails, `Create` returns a non-nil error after it. If it
succeeds and the `retrieve` that follows returns, `Create` returns after the
operations of the first `retrieve`, the mutation and the operations of that
second `retrieve`, and it returns nil exactly when the second `retrieve`
succeeds and `validate` classifies its text as matching. In both cases the
run holds exactly one mutation. -/
theorem Create_applies_once (s : Schema σ ρ) (rt : Runtime σ ρ) (fuel : Nat) (st st1 : σ)
    (text : GoString) (ops1 : List Op)
    (h1 : s.retrieve rt fuel st = some ((text, none), st1, ops1))
    (hv : s.validate text ≠ .ret none) :
    s.updateOp = Op.QueryWithVars s.graphql.CmdAdmin updateQuery [(str "schema", s.document)] ∧
    (∀ err r st2,
      s.graphql.QueryWithVars st1 s.graphql.CmdAdmin updateQuery [(str "schema", s.document)] =
        ((some err, r), st2) →
      ∃ e, s.Create rt fuel st = some (.ret (some e), st2, ops1 ++ [s.updateOp]) ∧
        (ops1 ++ [s.updateOp]).countP Op.isUpdate = 1) ∧
    (∀ r st2 text2 err2 st3 ops3,
      s.graphql.QueryWithVars st1 s.graphql.CmdAdmin updateQuery [(str "schema", s.document)] =
        ((none, r), st2) →
      s.retrieve rt fuel st2 = some ((text2, err2), st3, ops3) →
      ∃ res, s.Create rt fuel st = some (.ret res, st3, ops1 ++ s.updateOp :: ops3) ∧
        (res = none ↔ (err2 = none ∧ s.validate text2 = .ret none)) ∧
        (ops1 ++ s.updateOp :: ops3).countP Op.isUpdate = 1) := by
  have hc1 := retrieve_no_update s rt fuel st _ st1 ops1 h1
  have hv2 : ∃ e, s.validate text = .ret (some e) := by
    rcases validate_cases s text with h | h | h
    · exact absurd h hv
    · exact ⟨_, h⟩
    · exact ⟨_, h⟩
  rcases hv2 with ⟨e0, hv2⟩
  refine ⟨rfl, ?_, ?_⟩
  · intro err r st2 hm
    refine ⟨.withMessage err (str "create schema"), ?_, ?_⟩
    · unfold Schema.Create
      rw [h1]
      simp only [hv2, hm]
      rfl
    · rw [List.countP_append, hc1]
      simp [updateOp_isUpdate]
  · intro r st2 text2 err2 st3 ops3 hm h2
    have hc3 := retrieve_no_update s rt fuel st2 _ st3 ops3 h2
    have hcount : (ops1 ++ s.updateOp :: ops3).countP Op.isUpdate = 1 := by
      rw [List.countP_append, hc1, List.countP_cons, hc3]
      simp [updateOp_isUpdate]
    cases err2 with
    | some err =>
      refine ⟨some (.withMessage err (str "can't create schema, db not ready")), ?_, ?_, hcount⟩
      · unfold Schema.Create
        rw [h1]
        simp only [hv2, hm, h2]
        rfl
      · constructor
        · intro h
          exact Option.noConfusion h
        · intro h
          exact Option.noConfusion h.1
    | none =>
      rcases validate_cases s text2 with h | h | h
      · refine ⟨none, ?_, ?_, hcount⟩
        · unfold Schema.Create
          rw [h1]
          simp only [hv2, hm, h2, h]
          rfl
        · exact ⟨fun _ => ⟨rfl, h⟩, fun _ => rfl⟩
      · refine ⟨errors.Wrap ErrNoSchemaExists (str "invalid schema"), ?_, ?_, hcount⟩
        · unfold Schema.Create
          rw [h1]
          simp only [hv2, hm, h2, h]
          rfl
        · constructor
          · intro e
            exact Option.noConfusion e
          · intro e
            rw [h] at e
            exact absurd (Result.ret.inj e.2) (by decide)
      · refine ⟨errors.Wrap ErrInvalidSchema (str "invalid schema"), ?_, ?_, hcount⟩
        · unfold Schema.Create
          rw [h1]
          simp only [hv2, hm, h2, h]
          rfl
        · constructor
          · intro e
            exact Option.noConfusion e
          · intro e
            rw [h] at e
            exact absurd (Result.ret.inj e.2) (by decide)

/-- Witness of C2: the server stores the document of the package and answers the
first read with its text. -/
theorem Create_matching_no_write_witness :
    (New scriptedClient).Create scriptedRuntime 1 ⟨[(none, liveText document)], false, 0⟩ =
      some (.ret none, ⟨[], false, 0⟩, [(New scriptedClient).queryOp]) :=
  (Create_matching_no_write (New scriptedClient) scriptedRuntime 1
    ⟨[(none, liveText document)], false, 0⟩ ⟨[], false, 0⟩ (liveText document)
    [(New scriptedClient).queryOp] rfl (validate_document_liveText scriptedClient)).1

/-- Witness of C3: the server has no schema, accepts the mutation and then answers
with the text of the document. -/
theorem Create_applies_once_witness :
    (New scriptedClient).Create scriptedRuntime 1
        ⟨[(none, noSchemaNull), (none, str ""), (none, liveText document)], false, 0⟩ =
      some (.ret none, ⟨[], false, 0⟩,
        [(New scriptedClient).queryOp, (New scriptedClient).updateOp,
          (New scriptedClient).queryOp]) := by
  have h := (Create_applies_once (New scriptedClient) scriptedRuntime 1
    ⟨[(none, noSchemaNull), (none, str ""), (none, liveText document)], false, 0⟩
    ⟨[(none, str ""), (none, liveText document)], false, 0⟩ noSchemaNull
    [(New scriptedClient).queryOp] rfl
    (by
      rw [validate_noSchemaNull]
      decide)).2.2 (str "") ⟨[(none, liveText document)], false, 0⟩ (liveText document) none
    ⟨[], false, 0⟩ [(New scriptedClient).queryOp] rfl rfl
  rcases h with ⟨res, hc, hiff, _⟩
  have hres : res = none := hiff.2 ⟨rfl, validate_document_liveText scriptedClient⟩
  rw [hc, hres]
  rfl

theorem retryOps_counts (s : Schema σ ρ) (k : Nat) :
    (s.retryOps k).count s.queryOp = k + 1 ∧
    (s.retryOps k).count (Op.Sleep (2 * time.Second)) = k ∧
    (s.retryOps k).length = 2 * k + 1 := by
  have hne : s.queryOp ≠ Op.Sleep (2 * time.Second) := fun e => Op.noConfusion e
  have hb1 : (Op.Sleep (2 * time.Second) == s.queryOp) = false := by
    simpa using fun e => hne e.symm
  have hb2 : (s.queryOp == Op.Sleep (2 * time.Second)) = false := by
    simpa using hne
  induction k with
  | zero => simp [Schema.retryOps, List.count_cons, hb2]
  | succ n ih =>
    rcases ih with ⟨h1, h2, h3⟩
    refine ⟨?_, ?_, ?_⟩
    · simp only [Schema.retryOps, List.count_cons, h1, hb1, beq_self_eq_true]
      simp
    · simp only [Schema.retryOps, List.count_cons, h2, hb2, beq_self_eq_true]
      simp
    · simp only [Schema.retryOps, List.length_cons, h3]
      omega

theorem retrieve_after_rounds (s : Schema σ ρ) (rt : Runtime σ ρ) (k : Nat) :
    ∀ (st stk : σ) (fuel : Nat), s.notReadyRounds rt k st = some stk → k < fuel →
      ((s.query rt stk).1.2 = none ∨
        (∃ err, (s.query rt stk).1.2 = some err ∧
          strings.Contains err.Error (str "Server not ready") = false)) →
      s.retrieve rt fuel st =
        some (retrieveResult (s.query rt stk).1, (s.query rt stk).2, s.retryOps k) := by
  induction k with
  | zero =>
    intro st stk fuel h hf ht
    have e : st = stk := Option.some.inj h
    subst e
    cases fuel with
    | zero => omega
    | succ n =>
      apply retrieve_last
      rcases ht with ht | ⟨err, h1, h2⟩
      · exact Or.inl ht
      · exact Or.inr ⟨err, h1, Or.inl h2⟩
  | succ n ih =>
    intro st stk fuel h hf ht
    cases fuel with
    | zero => omega
    | succ m =>
      unfold Schema.notReadyRounds at h
      rcases hq : s.query rt st with ⟨⟨text, e⟩, st1⟩
      rw [hq] at h
      cases e with
      | none => exact Option.noConfusion h
      | some err =>
        simp only at h
        by_cases hc : strings.Contains err.Error (str "Server not ready") = true ∧
            rt.ctxErr st1 = none
        · rw [if_pos hc] at h
          have hx : rt.ctxErr (s.query rt st).2 = none := by
            rw [hq]
            exact hc.2
          rw [retrieve_retry s rt m st err (by rw [hq]) hc.1 hx, hq]
          simp only
          rw [ih _ stk m h (by omega) ht]
          rfl
        · rw [if_neg hc] at h
          exact Option.noConfusion h

/-- Counterexample to C8 as stated: the context is done when `retrieve` is called
and the query succeeds; `retrieve` returns the text and no error. -/
theorem retrieve_expired_counterexample :
    scriptedRuntime.ctxErr ⟨[(none, noSchemaNull)], true, 0⟩ ≠ none ∧
    (New scriptedClient).retrieve scriptedRuntime 1 ⟨[(none, noSchemaNull)], true, 0⟩ =
      some ((noSchemaNull, none), ⟨[], true, 0⟩, [(New scriptedClient).queryOp]) :=
  ⟨by decide, rfl⟩

/-- C8, amended. Retry policy of `retrieve`. (1) If `query` fails `k` times with a
message that contains "Server not ready" while the context is not done, and
then has a terminal outcome (success, or an error whose message does not
contain "Server not ready"), `retrieve`, given fuel for `k + 1` iterations,
issues exactly `k + 1` queries with a sleep of 2 seconds after each of the
first `k`, and returns the terminal outcome: the text on success, the error
wrapped with "server not ready" otherwise. (2) If the context is already
done when `retrieve` is called, `retrieve` issues one query and returns
without sleeping: the wrapped error when the query fails, not ready or
otherwise, and the text when the query succeeds. -/
theorem retrieve_retry_policy (s : Schema σ ρ) (rt : Runtime σ ρ) :
    (∀ (k : Nat) (st stk : σ) (fuel : Nat), s.notReadyRounds rt k st = some stk → k < fuel →
      ((s.query rt stk).1.2 = none ∨
        (∃ err, (s.query rt stk).1.2 = some err ∧
          strings.Contains err.Error (str "Server not ready") = false)) →
      s.retrieve rt fuel st =
        some (retrieveResult (s.query rt stk).1, (s.query rt stk).2, s.retryOps k) ∧
      (s.retryOps k).count s.queryOp = k + 1 ∧
      (s.retryOps k).count (Op.Sleep (2 * time.Second)) = k ∧
      (s.retryOps k).length = 2 * k + 1) ∧
    (∀ (st : σ) (fuel : Nat), 0 < fuel → rt.ctxErr st ≠ none →
      (rt.ctxErr st ≠ none → rt.ctxErr (s.query rt st).2 ≠ none) →
      s.retrieve rt fuel st =
        some (retrieveResult (s.query rt st).1, (s.query rt st).2, [s.queryOp])) ∧
    (∀ (text : GoString) (err : GoError),
      retrieveResult (text, none) = (text, none) ∧
      retrieveResult (text, some err) =
        (str "", some (.withMessage err (str "server not ready")))) := by
  refine ⟨?_, ?_, fun _ _ => ⟨rfl, rfl⟩⟩
  · intro k st stk fuel h hf ht
    exact ⟨retrieve_after_rounds s rt k st stk fuel h hf ht, retryOps_counts s k⟩
  · intro st fuel hf h0 hmono
    cases fuel with
    | zero => omega
    | succ n =>
      apply retrieve_last
      rcases he : (s.query rt st).1.2 with _ | err
      · exact Or.inl rfl
      · exact Or.inr ⟨err, rfl, Or.inr (hmono h0)⟩

/-- Witness of C8: one "Server not ready" failure and then the text of an absent
schema, with a live context; and a "Server not ready" failure with a context
that is done. -/
theorem retrieve_retry_policy_witness :
    (New scriptedClient).retrieve scriptedRuntime 2
        ⟨[(some (.external (str "Server not ready")), str ""), (none, noSchemaNull)], false, 0⟩ =
      some ((noSchemaNull, none), ⟨[], false, 2 * time.Second⟩,
        [(New scriptedClient).queryOp, Op.Sleep (2 * time.Second),
          (New scriptedClient).queryOp]) ∧
    (New scriptedClient).retrieve scriptedRuntime 1
        ⟨[(some (.external (str "Server not ready")), str "")], true, 0⟩ =
      some ((str "", some (.withMessage
          (.withMessage (.external (str "Server not ready")) (str "query schema"))
          (str "server not ready"))), ⟨[], true, 0⟩, [(New scriptedClient).queryOp]) :=
  ⟨((retrieve_retry_policy (New scriptedClient) scriptedRuntime).1 1
      ⟨[(some (.external (str "Server not ready")), str ""), (none, noSchemaNull)], false, 0⟩
      ⟨[(none, noSchemaNull)], false, 2 * time.Second⟩ 2 (by decide!) (by decide)
      (Or.inl rfl)).1,
    (retrieve_retry_policy (New scriptedClient) scriptedRuntime).2.1
      ⟨[(some (.external (str "Server not ready")), str "")], true, 0⟩ 1 (by decide)
      (by decide) (fun _ => by decide)⟩

/-- C1, at the failing input: the drop succeeds, yet the read that follows still
returns the text of the document of the package, which `validate`
classifies as matching; `DropAll` returns nil. -/
theorem DropAll_matching_returns_nil :
    (New scriptedClient).validate (liveText document) = .ret none ∧
    (New scriptedClient).DropAll scriptedRuntime 1
        ⟨[(none, str ""), (none, liveText document)], false, 0⟩ =
      some (.ret none, ⟨[], false, 0⟩,
        [Op.Do (str "alter") (str "\x7b\"drop_all\": true\x7d"),
          (New scriptedClient).queryOp]) := by
  refine ⟨validate_document_liveText scriptedClient, ?_⟩
  have hr : (New scriptedClient).retrieve scriptedRuntime 1 ⟨[(none, liveText document)], false, 0⟩
      = some ((liveText document, none), ⟨[], false, 0⟩, [(New scriptedClient).queryOp]) := rfl
  have hd : (New scriptedClient).graphql.Do
      ⟨[(none, str ""), (none, liveText document)], false, 0⟩ (str "alter")
      (str "\x7b\"drop_all\": true\x7d") = (none, ⟨[(none, liveText document)], false, 0⟩) := rfl
  unfold Schema.DropAll
  simp only [hd, hr, validate_document_liveText scriptedClient]
  rfl

end schema
